import Mathlib

/-!
Verification of the pptreport layout and content-placement engine.

This file gives a shallow embedding, in Lean, of the core algorithms of the
pptreport package (src/pptreport/slide.py, src/pptreport/box.py,
src/pptreport/powerpointreport.py) and proves or refutes the documented
properties of the design.  External collaborators of the package (the
filesystem glob, the regex engine, the natural-sort library, the PDF
rasteriser) are supplied as function parameters, matching the design document
treatment of them as injected capabilities; everything else is translated
from the Python source.
-/

namespace PptReport

/-! ## Layout matrices: `Slide.set_layout_matrix` (slide.py, lines 37-81) -/

/-- A cell of a layout matrix: `some i` holds element index `i`; `none` is the
NaN empty-cell marker used by slide.py. -/
abbrev Cell := Option Nat

/-- Row-major reshape of a flat list into a `rows × cols` matrix — the
semantics of `np.array(...).reshape((rows, cols))` used in
`Slide.set_layout_matrix`.  Positions outside the list (never reached when the
list has `rows * cols` entries) read as `none`. -/
def npReshape (rows cols : Nat) (xs : List Cell) : List (List Cell) :=
  (List.range rows).map fun r => (List.range cols).map fun c => xs.getD (r * cols + c) none

/-- numpy transpose (`.T`) of an `origRows × origCols` matrix. -/
def npTranspose (origRows origCols : Nat) (m : List (List Cell)) : List (List Cell) :=
  (List.range origCols).map fun r => (List.range origRows).map fun c => (m.getD c []).getD r none

/-- `Slide.set_layout_matrix` (slide.py, lines 37-81) for the named layouts
`"grid"`, `"vertical"` and `"horizontal"`.  `n_elements` is `len(self.content)`.
For `"grid"` the source clamps `n_columns = min(n_columns, n_elements)`,
computes `n_rows = ceil(n_elements / n_columns)`, lays out
`[0, ..., n_elements-1]` padded with NaN into a flat array and reshapes it
row-major; for `fill_by == "column"` it reshapes into the transposed shape and
transposes back.  The custom-matrix branch of the source (validation of a
user-supplied matrix) is outside the named-layout claims and is not embedded. -/
def set_layout_matrix (content_layout : String) (n_elements n_columns : Nat)
    (fill_by : String) : Except String (List (List Cell)) :=
  if content_layout = "grid" then
    let nc := min n_columns n_elements
    let n_rows := (n_elements + nc - 1) / nc
    let n_total := n_rows * nc
    let intarray : List Cell :=
      (List.range n_elements).map Option.some ++ List.replicate (n_total - n_elements) none
    if fill_by = "row" then Except.ok (npReshape n_rows nc intarray)
    else if fill_by = "column" then
      Except.ok (npTranspose nc n_rows (npReshape nc n_rows intarray))
    else Except.error ("Invalid value for fill_by parameter: " ++ fill_by)
  else if content_layout = "vertical" then
    Except.ok (npReshape n_elements 1 ((List.range n_elements).map Option.some))
  else if content_layout = "horizontal" then
    Except.ok (npReshape 1 n_elements ((List.range n_elements).map Option.some))
  else Except.error ("Unknown layout string: " ++ content_layout)

lemma getD_map_range {α : Type} (n k : Nat) (g : Nat → α) (d : α) (hk : k < n) :
    ((List.range n).map g).getD k d = g k := by
  rw [List.getD_eq_getElem?_getD, List.getElem?_map, List.getElem?_range hk]
  rfl

/-- Value of the flat padded index array of the grid layout at position `k`. -/
lemma intarray_getD (N nTot k : Nat) (hk : k < nTot) (hN : N ≤ nTot) :
    (((List.range N).map Option.some ++ List.replicate (nTot - N) (none : Cell)).getD k none)
      = if k < N then Option.some k else none := by
  rw [List.getD_eq_getElem?_getD, List.getElem?_append]
  simp only [List.length_map, List.length_range]
  by_cases h : k < N
  · rw [if_pos h, if_pos h, List.getElem?_map, List.getElem?_range h]
    rfl
  · rw [if_neg h, if_neg h, List.getElem?_replicate, if_pos (by omega)]
    rfl

/-- Completeness and soundness of a positionally defined matrix transfer to
membership statements about its rows. -/
lemma matrix_complete_sound (R C N : Nat) (f : Nat → Nat → Cell)
    (hsur : ∀ i, i < N → ∃ r, r < R ∧ ∃ c, c < C ∧ f r c = Option.some i)
    (hsound : ∀ r, r < R → ∀ c, c < C → ∀ j, f r c = Option.some j → j < N) :
    (∀ i, i < N → ∃ row ∈ (List.range R).map (fun r => (List.range C).map (f r)),
        Option.some i ∈ row) ∧
    (∀ row ∈ (List.range R).map (fun r => (List.range C).map (f r)),
        ∀ j, Option.some j ∈ row → j < N) := by
  constructor
  · intro i hi
    obtain ⟨r, hr, c, hc, hfv⟩ := hsur i hi
    refine ⟨(List.range C).map (f r), List.mem_map.mpr ⟨r, List.mem_range.mpr hr, rfl⟩, ?_⟩
    exact List.mem_map.mpr ⟨c, List.mem_range.mpr hc, hfv⟩
  · intro row hrow j hj
    obtain ⟨r, hr, rfl⟩ := List.mem_map.mp hrow
    obtain ⟨c, hc, hfv⟩ := List.mem_map.mp hj
    exact hsound r (List.mem_range.mp hr) c (List.mem_range.mp hc) j hfv

/-- Ceiling division bound: `N` elements fit into `ceil(N/nc)` rows of `nc`. -/
lemma le_ceil_mul (N nc : Nat) (h : 1 ≤ nc) : N ≤ ((N + nc - 1) / nc) * nc := by
  have h1 := Nat.div_add_mod' (N + nc - 1) nc
  have h2 : (N + nc - 1) % nc < nc := Nat.mod_lt _ h
  omega

lemma ceil_pos (N nc : Nat) (hN : 1 ≤ N) (h : 1 ≤ nc) : 1 ≤ (N + nc - 1) / nc := by
  rw [Nat.le_div_iff_mul_le (by omega)]
  omega

lemma cell_lt (x X y Y : Nat) (hx : x < X) (hy : y < Y) : x * Y + y < X * Y :=
  calc x * Y + y < x * Y + Y := by omega
  _ = (x + 1) * Y := by ring
  _ ≤ X * Y := Nat.mul_le_mul_right Y hx

/-- Cell of the transposed reshape used by the column fill. -/
lemma transpose_cell (nc nR : Nat) (xs : List Cell) (r cc : Nat) (hr : r < nR) (hcc : cc < nc) :
    ((npReshape nc nR xs).getD cc []).getD r none = xs.getD (cc * nR + r) none := by
  unfold npReshape
  rw [getD_map_range nc cc _ _ hcc, getD_map_range nR r _ _ hr]

/-- Claim C1: for every element count `N ≥ 1` and every named layout directive
with any valid `fill_by` and `n_columns ≥ 1`, the layout matrix produced by
`set_layout_matrix` contains every element index `0..N-1` at least once and no
index `≥ N`. -/
theorem claim_C1 (content_layout fill_by : String) (N c : Nat)
    (hN : 1 ≤ N) (hc : 1 ≤ c)
    (hl : content_layout = "grid" ∨ content_layout = "vertical" ∨ content_layout = "horizontal")
    (hf : fill_by = "row" ∨ fill_by = "column") :
    ∃ m, set_layout_matrix content_layout N c fill_by = Except.ok m ∧
      (∀ i, i < N → ∃ row ∈ m, Option.some i ∈ row) ∧
      (∀ row ∈ m, ∀ j, Option.some j ∈ row → j < N) := by
  have hnc : 1 ≤ min c N := le_min hc hN
  have hR : 1 ≤ (N + min c N - 1) / min c N := ceil_pos N (min c N) hN hnc
  have hTot : N ≤ ((N + min c N - 1) / min c N) * min c N := le_ceil_mul N (min c N) hnc
  have hTot2 : N ≤ (min c N) * ((N + min c N - 1) / min c N) := by
    rw [Nat.mul_comm]; exact hTot
  rcases hl with h | h | h <;> subst h
  · -- grid
    rcases hf with h2 | h2 <;> subst h2
    · -- fill_by = "row"
      refine ⟨npReshape ((N + min c N - 1) / min c N) (min c N)
          ((List.range N).map Option.some ++
            List.replicate ((N + min c N - 1) / min c N * min c N - N) none),
        by simp [set_layout_matrix], ?_⟩
      unfold npReshape
      apply matrix_complete_sound
      · intro i hi
        refine ⟨i / min c N, ?_, i % min c N, Nat.mod_lt _ (by omega), ?_⟩
        · rw [Nat.div_lt_iff_lt_mul (by omega)]
          omega
        · rw [intarray_getD N _ _ ?_ hTot]
          · have := Nat.div_add_mod' i (min c N)
            rw [if_pos (by omega)]
            exact congrArg Option.some (by omega)
          · exact cell_lt _ _ _ _ (by rw [Nat.div_lt_iff_lt_mul (by omega)]; omega)
              (Nat.mod_lt _ (by omega))
      · intro r hr cc hcc j hj
        rw [intarray_getD N _ _ (cell_lt _ _ _ _ hr hcc) hTot] at hj
        by_cases hlt : r * min c N + cc < N
        · rw [if_pos hlt] at hj
          have : r * min c N + cc = j := Option.some.inj hj
          omega
        · rw [if_neg hlt] at hj
          exact absurd hj (by simp)
    · -- fill_by = "column"
      refine ⟨npTranspose (min c N) ((N + min c N - 1) / min c N)
          (npReshape (min c N) ((N + min c N - 1) / min c N)
            ((List.range N).map Option.some ++
              List.replicate ((N + min c N - 1) / min c N * min c N - N) none)),
        by simp [set_layout_matrix], ?_⟩
      unfold npTranspose
      apply matrix_complete_sound
      · intro i hi
        have hcc : i / ((N + min c N - 1) / min c N) < min c N := by
          rw [Nat.div_lt_iff_lt_mul (by omega)]
          omega
        have hr : i % ((N + min c N - 1) / min c N) < (N + min c N - 1) / min c N :=
          Nat.mod_lt _ (by omega)
        refine ⟨i % ((N + min c N - 1) / min c N), hr,
                i / ((N + min c N - 1) / min c N), hcc, ?_⟩
        rw [transpose_cell _ _ _ _ _ hr hcc]
        have hk : i / ((N + min c N - 1) / min c N) * ((N + min c N - 1) / min c N)
            + i % ((N + min c N - 1) / min c N) < (N + min c N - 1) / min c N * min c N := by
          have h1 := cell_lt (i / ((N + min c N - 1) / min c N)) (min c N)
            (i % ((N + min c N - 1) / min c N)) ((N + min c N - 1) / min c N) hcc hr
          rw [Nat.mul_comm (min c N) ((N + min c N - 1) / min c N)] at h1
          exact h1
        rw [intarray_getD N _ _ hk hTot]
        have := Nat.div_add_mod' i ((N + min c N - 1) / min c N)
        rw [if_pos (by omega)]
        exact congrArg Option.some (by omega)
      · intro r hr cc hcc j hj
        rw [transpose_cell _ _ _ _ _ hr hcc] at hj
        have hk : cc * ((N + min c N - 1) / min c N) + r
            < (N + min c N - 1) / min c N * min c N := by
          have h1 := cell_lt cc (min c N) r ((N + min c N - 1) / min c N) hcc hr
          rw [Nat.mul_comm (min c N) ((N + min c N - 1) / min c N)] at h1
          exact h1
        rw [intarray_getD N _ _ hk hTot] at hj
        by_cases hlt : cc * ((N + min c N - 1) / min c N) + r < N
        · rw [if_pos hlt] at hj
          have : cc * ((N + min c N - 1) / min c N) + r = j := Option.some.inj hj
          omega
        · rw [if_neg hlt] at hj
          exact absurd hj (by simp)
  · -- vertical
    refine ⟨npReshape N 1 ((List.range N).map Option.some), ?_, ?_⟩
    · rcases hf with h2 | h2 <;> subst h2 <;> simp [set_layout_matrix]
    · unfold npReshape
      apply matrix_complete_sound
      · intro i hi
        refine ⟨i, hi, 0, by omega, ?_⟩
        rw [getD_map_range N (i * 1 + 0) Option.some none (by omega)]
        congr 1
        omega
      · intro r hr cc hcc j hj
        rw [getD_map_range N (r * 1 + cc) Option.some none (by omega)] at hj
        have := Option.some.inj hj
        omega
  · -- horizontal
    refine ⟨npReshape 1 N ((List.range N).map Option.some), ?_, ?_⟩
    · rcases hf with h2 | h2 <;> subst h2 <;> simp [set_layout_matrix]
    · unfold npReshape
      apply matrix_complete_sound
      · intro i hi
        refine ⟨0, by omega, i, hi, ?_⟩
        rw [getD_map_range N (0 * N + i) Option.some none (by omega)]
        congr 1
        omega
      · intro r hr cc hcc j hj
        have hr0 : r = 0 := by omega
        subst hr0
        rw [getD_map_range N (0 * N + cc) Option.some none (by omega)] at hj
        have := Option.some.inj hj
        omega

/-- Claim C1 witness at `N = 3`, `n_columns = 2`, grid layout filled by row. -/
theorem claim_C1_witness :
    (1 ≤ 3 ∧ 1 ≤ 2) ∧
    (∃ m, set_layout_matrix "grid" 3 2 "row" = Except.ok m ∧
      (∀ i, i < 3 → ∃ row ∈ m, Option.some i ∈ row) ∧
      (∀ row ∈ m, ∀ j, Option.some j ∈ row → j < 3)) :=
  ⟨⟨by decide, by decide⟩,
    claim_C1 "grid" "row" 3 2 (by decide) (by decide) (Or.inl rfl) (Or.inl rfl)⟩

/-- Cell of a row-major reshaped matrix. -/
lemma reshape_cell (R C : Nat) (xs : List Cell) (r cc : Nat) (hr : r < R) (hcc : cc < C) :
    ((npReshape R C xs).getD r []).getD cc none = xs.getD (r * C + cc) none := by
  unfold npReshape
  rw [getD_map_range R r _ _ hr, getD_map_range C cc _ _ hcc]

/-- Cell of a transposed matrix. -/
lemma npTranspose_getD (R C : Nat) (m : List (List Cell)) (r cc : Nat)
    (hr : r < C) (hcc : cc < R) :
    ((npTranspose R C m).getD r []).getD cc none = (m.getD cc []).getD r none := by
  unfold npTranspose
  rw [getD_map_range C r _ _ hr, getD_map_range R cc _ _ hcc]

/-- Claim C9: for every `N ≥ 1` and requested column count `c ≥ 1`, the grid
layout matrix has exactly `min c N` columns, `ceil(N / min c N)` rows (written
`(N + min c N - 1) / min c N` in natural-number arithmetic), indices assigned
row-major for `fill_by = "row"` and column-major for `fill_by = "column"`, and
every trailing cell beyond index `N-1` marked empty. -/
theorem claim_C9 (fill_by : String) (N c : Nat) (hN : 1 ≤ N) (hc : 1 ≤ c)
    (hf : fill_by = "row" ∨ fill_by = "column") :
    ∃ m, set_layout_matrix "grid" N c fill_by = Except.ok m ∧
      m.length = (N + min c N - 1) / min c N ∧
      (∀ row ∈ m, row.length = min c N) ∧
      (∀ r, r < (N + min c N - 1) / min c N → ∀ cc, cc < min c N →
        (m.getD r []).getD cc none =
          (if fill_by = "row"
           then (if r * min c N + cc < N then Option.some (r * min c N + cc) else none)
           else (if cc * ((N + min c N - 1) / min c N) + r < N
                 then Option.some (cc * ((N + min c N - 1) / min c N) + r) else none))) := by
  have hnc : 1 ≤ min c N := le_min hc hN
  have hTot : N ≤ ((N + min c N - 1) / min c N) * min c N := le_ceil_mul N (min c N) hnc
  rcases hf with h2 | h2 <;> subst h2
  · refine ⟨npReshape ((N + min c N - 1) / min c N) (min c N)
        ((List.range N).map Option.some ++
          List.replicate ((N + min c N - 1) / min c N * min c N - N) none),
      by simp [set_layout_matrix], ?_, ?_, ?_⟩
    · simp [npReshape]
    · intro row hrow
      unfold npReshape at hrow
      obtain ⟨r, hr, rfl⟩ := List.mem_map.mp hrow
      simp
    · intro r hr cc hcc
      rw [if_pos rfl, reshape_cell _ _ _ _ _ hr hcc,
        intarray_getD N _ _ (cell_lt _ _ _ _ hr hcc) hTot]
  · refine ⟨npTranspose (min c N) ((N + min c N - 1) / min c N)
        (npReshape (min c N) ((N + min c N - 1) / min c N)
          ((List.range N).map Option.some ++
            List.replicate ((N + min c N - 1) / min c N * min c N - N) none)),
      by simp [set_layout_matrix], ?_, ?_, ?_⟩
    · simp [npTranspose]
    · intro row hrow
      unfold npTranspose at hrow
      obtain ⟨r, hr, rfl⟩ := List.mem_map.mp hrow
      simp
    · intro r hr cc hcc
      have hk : cc * ((N + min c N - 1) / min c N) + r
          < (N + min c N - 1) / min c N * min c N := by
        have h1 := cell_lt cc (min c N) r ((N + min c N - 1) / min c N) hcc hr
        rw [Nat.mul_comm (min c N) ((N + min c N - 1) / min c N)] at h1
        exact h1
      rw [if_neg (by decide), npTranspose_getD _ _ _ _ _ hr hcc,
        transpose_cell _ _ _ _ _ hr hcc, intarray_getD N _ _ hk hTot]

/-- Claim C9 witness at `N = 5`, `n_columns = 2`, filled by column. -/
theorem claim_C9_witness :
    (1 ≤ 5 ∧ 1 ≤ 2) ∧
    (∃ m, set_layout_matrix "grid" 5 2 "column" = Except.ok m ∧
      m.length = (5 + min 2 5 - 1) / min 2 5 ∧
      (∀ row ∈ m, row.length = min 2 5) ∧
      (∀ r, r < (5 + min 2 5 - 1) / min 2 5 → ∀ cc, cc < min 2 5 →
        (m.getD r []).getD cc none =
          (if ("column" : String) = "row"
           then (if r * min 2 5 + cc < 5 then Option.some (r * min 2 5 + cc) else none)
           else (if cc * ((5 + min 2 5 - 1) / min 2 5) + r < 5
                 then Option.some (cc * ((5 + min 2 5 - 1) / min 2 5) + r) else none)))) :=
  ⟨⟨by decide, by decide⟩,
    claim_C9 "column" 5 2 (by decide) (by decide) (Or.inr rfl)⟩

/-! ## Box geometry: `Slide.create_boxes` (slide.py, lines 207-282) -/

/-- Available content width (slide.py, line 237): slide width minus left and
right margins minus `(n_cols - 1)` inner margins. -/
def total_content_width (slide_width left_margin right_margin inner_margin : ℚ)
    (n_cols : Nat) : ℚ :=
  slide_width - left_margin - right_margin - ((n_cols : ℚ) - 1) * inner_margin

/-- Available content height (slide.py, line 238): slide height minus the
(effective, possibly title-enlarged) top margin and bottom margin minus
`(n_rows - 1)` inner margins. -/
def total_content_height (slide_height top_margin bottom_margin inner_margin : ℚ)
    (n_rows : Nat) : ℚ :=
  slide_height - top_margin - bottom_margin - ((n_rows : ℚ) - 1) * inner_margin

/-- Column widths (slide.py, lines 244-247): equal shares
`np.ones(ncols)/ncols * total_width` when no ratios are given, otherwise the
elementwise `ratios / sum(ratios) * total_width`. -/
def column_widths (width_ratios : Option (List ℚ)) (ncols : Nat) (total_width : ℚ) :
    List ℚ :=
  match width_ratios with
  | Option.none => List.replicate ncols ((1 / (ncols : ℚ)) * total_width)
  | Option.some rs => rs.map fun r => r / rs.sum * total_width

/-- Row heights (slide.py, lines 249-252), same computation as the widths. -/
def row_heights (height_ratios : Option (List ℚ)) (nrows : Nat) (total_height : ℚ) :
    List ℚ :=
  match height_ratios with
  | Option.none => List.replicate nrows ((1 / (nrows : ℚ)) * total_height)
  | Option.some rs => rs.map fun r => r / rs.sum * total_height

/-- Positive normalized ratios sum to the full extent. -/
lemma sum_normalized (rs : List ℚ) (T : ℚ) (hne : rs ≠ []) (hpos : ∀ r ∈ rs, 0 < r) :
    (rs.map fun r => r / rs.sum * T).sum = T := by
  have hS : 0 < rs.sum := List.sum_pos rs hpos hne
  have h1 : (rs.map fun r => r / rs.sum * T).sum = (rs.map id).sum * (rs.sum⁻¹ * T) := by
    rw [← List.sum_map_mul_right]
    congr 1
    apply List.map_congr_left
    intro a _
    simp [div_eq_mul_inv, mul_assoc, id]
  rw [h1, List.map_id]
  field_simp

/-- Equal shares sum to the full extent. -/
lemma sum_equal_shares (n : Nat) (T : ℚ) (hn : 1 ≤ n) :
    (List.replicate n ((1 / (n : ℚ)) * T)).sum = T := by
  rw [List.sum_replicate, nsmul_eq_mul]
  have hne : (n : ℚ) ≠ 0 := by positivity
  field_simp

/-- Claim C8: for every layout matrix of `n` columns and `m` rows and every
valid ratio configuration (ratios absent, or a nonempty list of positive
numbers), the column widths computed by `create_boxes` sum exactly to the
available width and the row heights sum exactly to the available height (in
exact rational arithmetic; the float computation matches up to rounding). -/
theorem claim_C8 (slide_width slide_height left_margin right_margin top_margin
      bottom_margin inner_margin : ℚ) (ncols nrows : Nat)
    (width_ratios height_ratios : Option (List ℚ))
    (hc : 1 ≤ ncols) (hr : 1 ≤ nrows)
    (hw : ∀ rs, width_ratios = Option.some rs → rs ≠ [] ∧ ∀ r ∈ rs, 0 < r)
    (hh : ∀ rs, height_ratios = Option.some rs → rs ≠ [] ∧ ∀ r ∈ rs, 0 < r) :
    (column_widths width_ratios ncols
        (total_content_width slide_width left_margin right_margin inner_margin ncols)).sum
      = total_content_width slide_width left_margin right_margin inner_margin ncols ∧
    (row_heights height_ratios nrows
        (total_content_height slide_height top_margin bottom_margin inner_margin nrows)).sum
      = total_content_height slide_height top_margin bottom_margin inner_margin nrows := by
  constructor
  · cases width_ratios with
    | none => exact sum_equal_shares ncols _ hc
    | some rs =>
      obtain ⟨hne, hpos⟩ := hw rs rfl
      exact sum_normalized rs _ hne hpos
  · cases height_ratios with
    | none => exact sum_equal_shares nrows _ hr
    | some rs =>
      obtain ⟨hne, hpos⟩ := hh rs rfl
      exact sum_normalized rs _ hne hpos

/-- Claim C8 witness: a 2-column, 3-row slide with explicit width ratios
`[1, 3]` and default (equal-share) heights. -/
theorem claim_C8_witness :
    (1 ≤ 2 ∧ 1 ≤ 3) ∧
    ((column_widths (Option.some [1, 3]) 2
        (total_content_width 254 2 2 1 2)).sum
      = total_content_width 254 2 2 1 2 ∧
    (row_heights Option.none 3
        (total_content_height 190 2 2 1 3)).sum
      = total_content_height 190 2 2 1 3) :=
  ⟨⟨by decide, by decide⟩,
    claim_C8 254 190 2 2 2 2 1 2 3 (Option.some [1, 3]) Option.none
      (by decide) (by decide)
      (by intro rs h; cases h; exact ⟨by decide, by decide⟩)
      (by intro rs h; cases h)⟩

/-! ## Image fitting: `Box._adjust_image_size` (box.py, lines 248-276) -/

/-- `Box._adjust_image_size` (box.py, lines 248-276): scale an image of natural
size `im_width × im_height` to the largest size fitting a `box_width ×
box_height` box, preserving the aspect ratio.  Returns the content size
`(content_width, content_height)`.  The Python float arithmetic is embedded as
exact rational arithmetic. -/
def adjust_image_size (im_width im_height box_width box_height : ℚ) : ℚ × ℚ :=
  let im_ratio := im_width / im_height
  let box_ratio := box_width / box_height
  if box_ratio < im_ratio then
    (box_width, box_width * im_height / im_width)
  else
    (box_height * im_width / im_height, box_height)

/-- Claim C7: for every image `w × h` and box `W × H` with positive sizes,
`_adjust_image_size` preserves the aspect ratio exactly, fits in the box, and
touches at least one pair of box edges (`cw = W` or `ch = H`). -/
theorem claim_C7 (w h W H : ℚ) (hw : 0 < w) (hh : 0 < h) (hW : 0 < W) (hH : 0 < H) :
    (adjust_image_size w h W H).1 / (adjust_image_size w h W H).2 = w / h ∧
    (adjust_image_size w h W H).1 ≤ W ∧
    (adjust_image_size w h W H).2 ≤ H ∧
    ((adjust_image_size w h W H).1 = W ∨ (adjust_image_size w h W H).2 = H) := by
  unfold adjust_image_size
  by_cases hlt : W / H < w / h
  · rw [if_pos hlt]
    have hWh : W * h < w * H := (div_lt_div_iff₀ hH hh).mp hlt
    refine ⟨?_, le_refl W, ?_, Or.inl rfl⟩
    · field_simp
      ring
    · rw [div_le_iff₀ hw]
      nlinarith
  · rw [if_neg hlt]
    push_neg at hlt
    have hwh : w * H ≤ W * h := (div_le_div_iff₀ hh hH).mp hlt
    refine ⟨?_, ?_, le_refl H, Or.inr rfl⟩
    · field_simp
      ring
    · rw [div_le_iff₀ hh]
      nlinarith

/-- Claim C7 witness: a 4×3 image in a 2×3 box. -/
theorem claim_C7_witness :
    (0 < (4 : ℚ) ∧ 0 < (3 : ℚ) ∧ 0 < (2 : ℚ) ∧ 0 < (3 : ℚ)) ∧
    ((adjust_image_size 4 3 2 3).1 / (adjust_image_size 4 3 2 3).2 = 4 / 3 ∧
     (adjust_image_size 4 3 2 3).1 ≤ 2 ∧
     (adjust_image_size 4 3 2 3).2 ≤ 3 ∧
     ((adjust_image_size 4 3 2 3).1 = 2 ∨ (adjust_image_size 4 3 2 3).2 = 3)) :=
  ⟨⟨by norm_num, by norm_num, by norm_num, by norm_num⟩,
    claim_C7 4 3 2 3 (by norm_num) (by norm_num) (by norm_num) (by norm_num)⟩

/-! ## Natural sort (external collaborator: the natsort library) -/

/-- A chunk of a natural-sort key: a maximal run of non-digit characters or the
numeric value of a maximal run of digits. -/
inductive NsChunk where
  | str (cs : List Char)
  | num (n : Nat)

/-- Numeric value of a digit run. -/
def digitsVal (ds : List Char) : Nat := ds.foldl (fun a c => a * 10 + (c.toNat - 48)) 0

/-- Split a character list into natural-sort chunks (fuel-driven; one chunk
consumes at least one character, so `fuel = length` suffices). -/
def natsortKeyGo : Nat → List Char → List NsChunk
  | 0, _ => []
  | _, [] => []
  | fuel + 1, c :: cs =>
    if c.isDigit then
      NsChunk.num (digitsVal ((c :: cs).takeWhile Char.isDigit))
        :: natsortKeyGo fuel ((c :: cs).dropWhile Char.isDigit)
    else
      NsChunk.str ((c :: cs).takeWhile (fun ch => !ch.isDigit))
        :: natsortKeyGo fuel ((c :: cs).dropWhile (fun ch => !ch.isDigit))

/-- Order-embedding of a chunk into a lexicographic product (numeric chunks
order numerically and sort before textual chunks, as in natsort keys where a
digit run is preceded by the empty string). -/
def chunkKey : NsChunk → Lex (ℕ × Lex (ℕ × List Char))
  | NsChunk.num n => toLex (0, toLex (n, []))
  | NsChunk.str cs => toLex (1, toLex (0, cs))

/-- Natural-sort key of a string. -/
def natKey (s : String) : List (Lex (ℕ × Lex (ℕ × List Char))) :=
  (natsortKeyGo s.length s.data).map chunkKey

/-- The natural (alphanumeric-aware) order: compare natural-sort keys. -/
def natsortLe (a b : String) : Prop := natKey a ≤ natKey b

instance : DecidableRel natsortLe :=
  fun a b => inferInstanceAs (Decidable (natKey a ≤ natKey b))

instance : IsTotal String natsortLe := ⟨fun a b => le_total (natKey a) (natKey b)⟩

instance : IsTrans String natsortLe := ⟨fun _ _ _ h1 h2 => le_trans h1 h2⟩

/-- Modelled external collaborator: `natsorted` from the natsort library — a
stable sort of strings by natural key, so that "file2" sorts before "file10". -/
def natsorted (l : List String) : List String := l.insertionSort natsortLe

/-! ## Content resolution: `PowerPointReport._expand_files`
(powerpointreport.py, lines 588-661) -/

/-- Python `len(s.split())`: the number of maximal whitespace-separated words. -/
def wordCount (s : String) : Nat :=
  (s.data.foldl (fun (acc : Nat × Bool) c =>
     if c.isWhitespace then (acc.1, false)
     else if acc.2 then acc else (acc.1 + 1, true)) (0, false)).1

/-- Python `s.rstrip().lstrip()`: remove leading and trailing whitespace. -/
def pyStrip (s : String) : String :=
  String.mk (((s.data.dropWhile Char.isWhitespace).reverse.dropWhile Char.isWhitespace).reverse)

/-- An intermediate entry of the `content` list built by `_expand_files`:
either a list of files found for one pattern, or a literal item (text or
`None`). -/
inductive RawEntry where
  | files (fs : List String)
  | item (it : Option String)

/-- One iteration of the `_expand_files` loop (powerpointreport.py, lines
611-650).  `glb` and `rgx` are the external glob (`glob.glob`) and regex
search (`self._glob_regex`) collaborators.  A single-word element is stripped
and looked up by glob, then by regex; a pattern containing `*` that matches
nothing triggers the missing-file policy; multi-word elements and `None` pass
through as literal items. -/
def expand_element (glb rgx : String → List String) (missing_file : String)
    (element : Option String) : Except String (List RawEntry) :=
  match element with
  | Option.some s =>
    if wordCount s = 1 then
      let e := pyStrip s
      let found := glb e
      let found2 := if found.length = 0 then found ++ rgx e else found
      if found2.length = 0 ∧ e.data.contains '*' = true then
        if missing_file = "raise" then
          Except.error ("No files could be found for pattern: " ++ e)
        else if missing_file = "empty" then Except.ok [RawEntry.item Option.none]
        else if missing_file = "skip" then Except.ok []
        else Except.error ("Unknown value for missing_file: " ++ missing_file)
      else if 0 < found2.length then Except.ok [RawEntry.files found2]
      else Except.ok [RawEntry.item (Option.some e)]
    else Except.ok [RawEntry.item (Option.some s)]
  | Option.none => Except.ok [RawEntry.item Option.none]

/-- The main loop of `_expand_files`: process elements in order, propagating
the first error. -/
def expand_loop (glb rgx : String → List String) (missing_file : String) :
    List (Option String) → Except String (List RawEntry)
  | [] => Except.ok []
  | el :: rest =>
    match expand_element glb rgx missing_file el with
    | Except.error e => Except.error e
    | Except.ok es =>
      match expand_loop glb rgx missing_file rest with
      | Except.error e => Except.error e
      | Except.ok acc => Except.ok (es ++ acc)

/-- The flattening pass of `_expand_files` (lines 652-659): file lists are
natural-sorted and spliced in; literal items are kept as they are. -/
def flatten_entries (entries : List RawEntry) : List (Option String) :=
  entries.foldl (fun acc e =>
    match e with
    | RawEntry.files fs => acc ++ (natsorted fs).map Option.some
    | RawEntry.item it => acc ++ [it]) []

/-- `PowerPointReport._expand_files` (powerpointreport.py, lines 588-661). -/
def expand_files (glb rgx : String → List String) (missing_file : String)
    (lst : List (Option String)) : Except String (List (Option String)) :=
  match expand_loop glb rgx missing_file lst with
  | Except.error e => Except.error e
  | Except.ok entries => Except.ok (flatten_entries entries)

/-- Claim C3: for a content pattern matching zero files (single word,
containing a glob `*`, with both glob and regex lookup empty),
`_expand_files` raises a file-not-found error under `missing_file = "raise"`,
yields exactly one `Empty` (`None`) item under `"empty"`, and yields nothing
under `"skip"`, so the resolved element count drops by one relative to
`"empty"`. -/
theorem claim_C3 (glb rgx : String → List String) (p : String)
    (hw : wordCount p = 1) (hstar : (pyStrip p).data.contains '*' = true)
    (hg : glb (pyStrip p) = []) (hr : rgx (pyStrip p) = []) :
    expand_files glb rgx "raise" [Option.some p]
        = Except.error ("No files could be found for pattern: " ++ pyStrip p) ∧
    expand_files glb rgx "empty" [Option.some p] = Except.ok [Option.none] ∧
    expand_files glb rgx "skip" [Option.some p] = Except.ok [] ∧
    (∀ res_empty res_skip,
      expand_files glb rgx "empty" [Option.some p] = Except.ok res_empty →
      expand_files glb rgx "skip" [Option.some p] = Except.ok res_skip →
      res_skip.length + 1 = res_empty.length) := by
  have hbase : ∀ mf : String, expand_element glb rgx mf (Option.some p)
      = (if mf = "raise" then
          Except.error ("No files could be found for pattern: " ++ pyStrip p)
        else if mf = "empty" then Except.ok [RawEntry.item Option.none]
        else if mf = "skip" then Except.ok []
        else Except.error ("Unknown value for missing_file: " ++ mf)) := by
    intro mf
    simp only [expand_element]
    rw [if_pos hw]
    simp only [hg, hr]
    rw [if_pos ⟨by simp, hstar⟩]
  refine ⟨?_, ?_, ?_, ?_⟩
  · simp [expand_files, expand_loop, hbase]
  · simp [expand_files, expand_loop, hbase, flatten_entries]
  · simp [expand_files, expand_loop, hbase, flatten_entries]
  · intro res_empty res_skip h1 h2
    have e1 : res_empty = [Option.none] := by
      have := h1.symm.trans (by simp [expand_files, expand_loop, hbase, flatten_entries] :
        expand_files glb rgx "empty" [Option.some p] = Except.ok [Option.none])
      exact Except.ok.inj this
    have e2 : res_skip = [] := by
      have := h2.symm.trans (by simp [expand_files, expand_loop, hbase, flatten_entries] :
        expand_files glb rgx "skip" [Option.some p] = Except.ok [])
      exact Except.ok.inj this
    rw [e1, e2]
    rfl

/-- Claim C3 witness at the spec pattern `nonexistent*.xyz` with an empty
filesystem. -/
theorem claim_C3_witness :
    (wordCount "nonexistent*.xyz" = 1 ∧
     (pyStrip "nonexistent*.xyz").data.contains '*' = true) ∧
    (expand_files (fun _ => []) (fun _ => []) "raise" [Option.some "nonexistent*.xyz"]
        = Except.error ("No files could be found for pattern: " ++ pyStrip "nonexistent*.xyz") ∧
     expand_files (fun _ => []) (fun _ => []) "empty" [Option.some "nonexistent*.xyz"]
        = Except.ok [Option.none] ∧
     expand_files (fun _ => []) (fun _ => []) "skip" [Option.some "nonexistent*.xyz"]
        = Except.ok [] ∧
    (∀ res_empty res_skip,
      expand_files (fun _ => []) (fun _ => []) "empty" [Option.some "nonexistent*.xyz"]
          = Except.ok res_empty →
      expand_files (fun _ => []) (fun _ => []) "skip" [Option.some "nonexistent*.xyz"]
          = Except.ok res_skip →
      res_skip.length + 1 = res_empty.length)) :=
  ⟨⟨by decide, by decide⟩,
    claim_C3 (fun _ => []) (fun _ => []) "nonexistent*.xyz" (by decide) (by decide) rfl rfl⟩

/-- Claim C10: a content string with more than one whitespace-separated word is
passed through `_expand_files` unchanged as literal text — no glob expansion,
regex matching or missing-file policy is applied to it, for every filesystem
(`glb`, `rgx`) and every missing-file setting. -/
theorem claim_C10 (glb rgx : String → List String) (missing_file : String) (s : String)
    (hw : 1 < wordCount s) :
    expand_files glb rgx missing_file [Option.some s] = Except.ok [Option.some s] := by
  have h1 : expand_element glb rgx missing_file (Option.some s)
      = Except.ok [RawEntry.item (Option.some s)] := by
    simp only [expand_element]
    rw [if_neg (by omega)]
  simp [expand_files, expand_loop, h1, flatten_entries]

/-- Claim C10 witness: the two-word string "hello world" passes through
unchanged even though the modelled filesystem has a file of exactly that
name. -/
theorem claim_C10_witness :
    1 < wordCount "hello world" ∧
    expand_files (fun _ => ["hello world"]) (fun _ => []) "raise" [Option.some "hello world"]
      = Except.ok [Option.some "hello world"] :=
  ⟨by decide,
    claim_C10 (fun _ => ["hello world"]) (fun _ => []) "raise" "hello world" (by decide)⟩

/-! ## Split policy: `PowerPointReport._get_content`
(powerpointreport.py, lines 663-707) -/

/-- The value of the `split` parameter after `_validate_parameters`: a Python
bool or int (a Python bool is itself an int with `True == 1`). -/
inductive SplitVal where
  | bool (b : Bool)
  | int (n : Int)
deriving DecidableEq

/-- The integer value a split setting carries when used as a chunk step
(Python treats `True` as `1` and `False` as `0`). -/
def SplitVal.toInt : SplitVal → Int
  | SplitVal.bool b => if b then 1 else 0
  | SplitVal.int n => n

/-- Python list slicing `[lst[i:i+k] for i in range(0, len(lst), k)]` for a
positive step `k` (fuel-driven: each step consumes `k ≥ 1` elements). -/
def pyChunksFuel {α : Type} : Nat → Nat → List α → List (List α)
  | 0, _, _ => []
  | _, _, [] => []
  | fuel + 1, k, x :: xs => (x :: xs).take k :: pyChunksFuel fuel k ((x :: xs).drop k)

/-- Consecutive chunks of at most `k` elements, in order. -/
def pyChunks {α : Type} (k : Nat) (xs : List α) : List (List α) :=
  pyChunksFuel xs.length k xs

/-- The split stage of `PowerPointReport._get_content` (powerpointreport.py,
lines 695-707), applied to the already resolved content list: `split is False`
keeps everything on one slide; otherwise empty content is an error, an integer
step (a Python bool is an int: `True` steps by 1) chunks the list via
`range(0, len, k)`, a zero step is a `range` error and a negative step yields
an empty `range`, hence no slides. -/
def get_content_split {α : Type} (split : SplitVal) (content : List α) :
    Except String (List (List α)) :=
  if split = SplitVal.bool false then Except.ok [content]
  else if content.length = 0 then Except.error "Split is True, but 'content' is empty."
  else
    let k := split.toInt
    if k = 0 then Except.error "range() arg 3 must not be zero"
    else if k < 0 then Except.ok []
    else Except.ok (pyChunks k.toNat content)

lemma pyChunksFuel_spec {α : Type} (fuel k : Nat) (hk : 1 ≤ k) :
    ∀ xs : List α, xs.length ≤ fuel →
      (pyChunksFuel fuel k xs).flatten = xs ∧
      ∀ c ∈ pyChunksFuel fuel k xs, c.length ≤ k := by
  induction fuel with
  | zero =>
    intro xs hxs
    have : xs = [] := List.eq_nil_of_length_eq_zero (by omega)
    subst this
    simp [pyChunksFuel]
  | succ n ih =>
    intro xs hxs
    cases xs with
    | nil => simp [pyChunksFuel]
    | cons x t =>
      have hdrop : ((x :: t).drop k).length ≤ n := by
        rw [List.length_drop]
        simp only [List.length_cons] at hxs ⊢
        omega
      obtain ⟨ihj, ihl⟩ := ih ((x :: t).drop k) hdrop
      constructor
      · simp only [pyChunksFuel, List.flatten_cons]
        rw [ihj, List.take_append_drop]
      · intro c hc
        simp only [pyChunksFuel, List.mem_cons] at hc
        rcases hc with h | h
        · subst h
          simp [List.length_take]
        · exact ihl c h

/-- Claim C2: splitting a resolved content list of 5 items with `split = 2`
gives 3 chunks of sizes `[2, 2, 1]`; `split = True` gives 5 single-item
chunks; `split = False` gives one chunk with all 5 items; and in general an
integer `split = k ≥ 1` chunks any nonempty content into consecutive groups
of at most `k` items whose concatenation is the original list. -/
theorem claim_C2 {α : Type} (content : List α) (h5 : content.length = 5) :
    (get_content_split (SplitVal.int 2) content).map (fun cs => cs.map List.length)
        = Except.ok [2, 2, 1] ∧
    (get_content_split (SplitVal.bool true) content).map (fun cs => cs.map List.length)
        = Except.ok [1, 1, 1, 1, 1] ∧
    get_content_split (SplitVal.bool false) content = Except.ok [content] ∧
    (∀ (k : Int) (xs : List α), 1 ≤ k → xs ≠ [] →
      ∃ chunks, get_content_split (SplitVal.int k) xs = Except.ok chunks ∧
        chunks.flatten = xs ∧ ∀ c ∈ chunks, c.length ≤ k.toNat) := by
  obtain ⟨a, t1, rfl⟩ : ∃ a t, content = a :: t := by
    cases content with
    | nil => simp at h5
    | cons a t => exact ⟨a, t, rfl⟩
  obtain ⟨b, t2, rfl⟩ : ∃ b t, t1 = b :: t := by
    cases t1 with
    | nil => simp at h5
    | cons b t => exact ⟨b, t, rfl⟩
  obtain ⟨cc, t3, rfl⟩ : ∃ cc t, t2 = cc :: t := by
    cases t2 with
    | nil => simp at h5
    | cons cc t => exact ⟨cc, t, rfl⟩
  obtain ⟨d, t4, rfl⟩ : ∃ d t, t3 = d :: t := by
    cases t3 with
    | nil => simp at h5
    | cons d t => exact ⟨d, t, rfl⟩
  obtain ⟨e, t5, rfl⟩ : ∃ e t, t4 = e :: t := by
    cases t4 with
    | nil => simp at h5
    | cons e t => exact ⟨e, t, rfl⟩
  have ht5 : t5 = [] := by
    simp only [List.length_cons] at h5
    exact List.eq_nil_of_length_eq_zero (by omega)
  subst ht5
  refine ⟨rfl, rfl, rfl, ?_⟩
  intro k xs hk hne
  have hknot0 : ¬ (k = 0) := by omega
  have hknotneg : ¬ (k < 0) := by omega
  refine ⟨pyChunks k.toNat xs, ?_, ?_⟩
  · simp only [get_content_split, SplitVal.toInt]
    rw [if_neg (by simp), if_neg (by simp [List.length_eq_zero, hne]), if_neg hknot0,
      if_neg hknotneg]
  · have hk1 : 1 ≤ k.toNat := by omega
    obtain ⟨hj, hl⟩ := pyChunksFuel_spec xs.length k.toNat hk1 xs (le_refl _)
    exact ⟨hj, hl⟩

/-- Claim C2 witness on the concrete content list `[0, 1, 2, 3, 4]`. -/
theorem claim_C2_witness :
    (([0, 1, 2, 3, 4] : List Nat).length = 5) ∧
    ((get_content_split (SplitVal.int 2) ([0, 1, 2, 3, 4] : List Nat)).map
        (fun cs => cs.map List.length) = Except.ok [2, 2, 1] ∧
    (get_content_split (SplitVal.bool true) ([0, 1, 2, 3, 4] : List Nat)).map
        (fun cs => cs.map List.length) = Except.ok [1, 1, 1, 1, 1] ∧
    get_content_split (SplitVal.bool false) ([0, 1, 2, 3, 4] : List Nat)
        = Except.ok [[0, 1, 2, 3, 4]] ∧
    (∀ (k : Int) (xs : List Nat), 1 ≤ k → xs ≠ [] →
      ∃ chunks, get_content_split (SplitVal.int k) xs = Except.ok chunks ∧
        chunks.flatten = xs ∧ ∀ c ∈ chunks, c.length ≤ k.toNat)) :=
  ⟨by decide, claim_C2 ([0, 1, 2, 3, 4] : List Nat) (by decide)⟩

/-! ## Slide parameters as Python values:
`PowerPointReport._validate_parameters` (powerpointreport.py, lines 257-326) -/

/-- A Python value as it occurs among slide parameters. -/
inductive PVal where
  | none
  | bool (b : Bool)
  | int (n : Int)
  | str (s : String)
  | list (l : List PVal)

/-- Python `v is None`. -/
def PVal.isNoneV : PVal → Bool
  | PVal.none => true
  | _ => false

/-- Python `isinstance(v, list)`. -/
def PVal.isListV : PVal → Bool
  | PVal.list _ => true
  | _ => false

/-- Python `v is False` (identity with the `False` singleton). -/
def PVal.isFalseLit : PVal → Bool
  | PVal.bool false => true
  | _ => false

/-- A Python dict with string keys, as an insertion-ordered association list. -/
abbrev PyDict := List (String × PVal)

/-- Python `d.get(k, dflt)`. -/
def dget (d : PyDict) (k : String) (dflt : PVal) : PVal :=
  match d.find? (fun kv => kv.1 == k) with
  | Option.some kv => kv.2
  | Option.none => dflt

/-- Python `k in d`. -/
def dmem (d : PyDict) (k : String) : Bool := d.any (fun kv => kv.1 == k)

/-- Python `d[k] = v`: overwrite in place, else append. -/
def dset (d : PyDict) (k : String) (v : PVal) : PyDict :=
  if dmem d k then d.map (fun kv => if kv.1 == k then (k, v) else kv) else d ++ [(k, v)]

/-- Python `len(v)`: defined for lists and strings, a `TypeError` otherwise. -/
def pyLen : PVal → Except String Nat
  | PVal.list l => Except.ok l.length
  | PVal.str s => Except.ok s.length
  | _ => Except.error "TypeError: object has no len()"

/-- Decimal integer literal accepted by Python `int(str)`: optional sign and a
nonempty digit run, surrounding whitespace ignored. -/
def pyParseInt (s : String) : Option Int :=
  let cs := (pyStrip s).data
  match cs with
  | [] => Option.none
  | c :: rest =>
    if c = '-' then
      if rest ≠ [] ∧ rest.all Char.isDigit then Option.some (-(digitsVal rest : Int))
      else Option.none
    else if c = '+' then
      if rest ≠ [] ∧ rest.all Char.isDigit then Option.some ((digitsVal rest : Int))
      else Option.none
    else if (c :: rest).all Char.isDigit then Option.some ((digitsVal (c :: rest) : Int))
    else Option.none

/-- Python `int(v)` on a parameter value (no floats occur among the
int-converted slide parameters). -/
def pyIntConv : PVal → Except String Int
  | PVal.bool b => Except.ok (if b then 1 else 0)
  | PVal.int n => Except.ok n
  | PVal.str s =>
    match pyParseInt s with
    | Option.some n => Except.ok n
    | Option.none => Except.error ("invalid literal for int() with base 10: " ++ s)
  | _ => Except.error "TypeError: int() argument"

/-- `_convert_to_bool` (powerpointreport.py, lines 53-72). -/
def convert_to_bool : PVal → Except String PVal
  | PVal.bool b => Except.ok (PVal.bool b)
  | PVal.str s =>
    if s.toLower ∈ ["true", "1", "t", "y", "yes"] then Except.ok (PVal.bool true)
    else if s.toLower ∈ ["false", "0", "f", "n", "no"] then Except.ok (PVal.bool false)
    else Except.error ("Could not convert string '" ++ s ++ "' to a boolean value.")
  | PVal.int n => Except.ok (PVal.bool (n ≠ 0))
  | PVal.none => Except.ok (PVal.bool false)
  | PVal.list l => Except.ok (PVal.bool (l.length ≠ 0))

/-- The `n_columns` conversion (lines 287-291): `int()` with `ValueError`
caught and re-raised with a custom message; a `TypeError` (e.g. a list)
propagates as is. -/
def validate_n_columns (v : PVal) : Except String PVal :=
  match v with
  | PVal.str s =>
    match pyParseInt s with
    | Option.some n => Except.ok (PVal.int n)
    | Option.none => Except.error ("Could not convert 'n_columns' parameter to int. "
        ++ "The given value is: '" ++ s ++ "'. Please use an integer.")
  | PVal.bool b => Except.ok (PVal.int (if b then 1 else 0))
  | PVal.int n => Except.ok (PVal.int n)
  | _ => Except.error "TypeError: int() argument"

/-- The `split` conversion (lines 293-298): try `int()` first, on any failure
fall back to `_convert_to_bool`. -/
def validate_split (v : PVal) : Except String PVal :=
  match pyIntConv v with
  | Except.ok n => Except.ok (PVal.int n)
  | Except.error _ => convert_to_bool v

/-- The `show_filename` conversion (lines 306-317): `_convert_to_bool`, and on
a `ValueError` a string value must belong to the fixed set of styles. -/
def validate_show_filename (v : PVal) : Except String PVal :=
  match convert_to_bool v with
  | Except.ok b => Except.ok b
  | Except.error e =>
    match v with
    | PVal.str s =>
      if s ∈ ["filename", "filename_ext", "filepath", "filepath_ext", "path"] then
        Except.ok (PVal.str s)
      else Except.error ("Invalid parameter for 'show_filename'. The given value is: '"
          ++ s ++ "'.")
    | _ => Except.error e

/-- The `missing_file` validation (lines 319-326): must be one of the strings
"raise", "empty", "skip" (case-insensitive, stored lowercased). -/
def validate_missing_file (v : PVal) : Except String PVal :=
  match v with
  | PVal.str s =>
    if s.toLower ∈ ["raise", "empty", "skip"] then Except.ok (PVal.str s.toLower)
    else Except.error ("Invalid input '" ++ s.toLower
        ++ "' for 'missing_file'. Must be either 'raise', 'empty' or 'skip'.")
  | _ => Except.error "Invalid input for 'missing_file' - must be either 'raise', 'empty' or 'skip'"

/-- Re-run a per-key conversion if the key is present. -/
def convert_key (d : PyDict) (k : String) (f : PVal → Except String PVal) :
    Except String PyDict :=
  if dmem d k then
    match f (dget d k PVal.none) with
    | Except.error e => Except.error e
    | Except.ok v => Except.ok (dset d k v)
  else Except.ok d

/-- `PowerPointReport._validate_parameters` (powerpointreport.py, lines
257-326): the cross-field checks, the `outer_margin` expansion into the four
side margins (iterating over a snapshot of the keys), and the per-key
conversions, in source order.  Returns the updated parameter dict (the Python
code mutates it in place). -/
def validate_parameters (p0 : PyDict) : Except String PyDict :=
  if dmem p0 "content" ∧ dmem p0 "grouped_content" then
    Except.error ("Invalid input. Both 'content' and 'grouped_content' were given"
      ++ " - please give only one input type.")
  else
    match
      (if (dget p0 "split" (PVal.bool false)).isFalseLit = false then
        match pyLen (dget p0 "content" (PVal.list [])) with
        | Except.error e => Except.error e
        | Except.ok n =>
          if n = 0 then Except.error "Invalid input. 'split' is given, but 'content' is empty"
          else Except.ok ()
      else Except.ok ()) with
    | Except.error e => Except.error e
    | Except.ok _ =>
      if dmem p0 "grouped_content" && !(dget p0 "grouped_content" PVal.none).isListV then
        Except.error "Invalid input. 'grouped_content' must be a list."
      else
        let keys := p0.map Prod.fst
        let p1 := keys.foldl (fun d k =>
          if k = "outer_margin" then
            let v := dget p0 k PVal.none
            dset (dset (dset (dset d "left_margin" v) "right_margin" v) "top_margin" v)
              "bottom_margin" v
          else dset d k (dget p0 k PVal.none)) p0
        match convert_key p1 "n_columns" validate_n_columns with
        | Except.error e => Except.error e
        | Except.ok p2 =>
          match convert_key p2 "split" validate_split with
          | Except.error e => Except.error e
          | Except.ok p3 =>
            match convert_key p3 "remove_placeholders" convert_to_bool with
            | Except.error e => Except.error e
            | Except.ok p4 =>
              match convert_key p4 "show_filename" validate_show_filename with
              | Except.error e => Except.error e
              | Except.ok p5 => convert_key p5 "missing_file" validate_missing_file

/-! ## `add_slide` state: validation happens after the config append
(powerpointreport.py, lines 416-431) -/

/-- The report state touched by the opening of `add_slide`: the config dict
slide list (`self._config_dict["slides"]`, appended by `_add_to_config`) and
the number of built slides (`self._slides`, appended only later by
`_setup_slide`). -/
structure ReportState where
  configSlides : List PyDict
  slides : Nat

/-- The parameter dict built at the start of `add_slide` (lines 419-422):
`{"content": content}` updated with the keyword arguments, then filtered to
the keys whose value is not `None`. -/
def build_params (content : PVal) (kwargs : PyDict) : PyDict :=
  ((kwargs.foldl (fun d kv => dset d kv.1 kv.2) [("content", content)]).filter
    (fun kv => kv.2.isNoneV = false))

/-- The opening of `add_slide` (powerpointreport.py, lines 416-431): build the
parameter dict, append it to the config dict (`_add_to_config`, line 423) and
only then validate (`_validate_parameters`, line 427).  On a validation error
the exception propagates with the config already extended and no slide
created. -/
def add_slide_start (st : ReportState) (content : PVal) (kwargs : PyDict) :
    Except String PyDict × ReportState :=
  let params := build_params content kwargs
  let st1 : ReportState := { st with configSlides := st.configSlides ++ [params] }
  match validate_parameters params with
  | Except.error e => (Except.error e, st1)
  | Except.ok p2 => (Except.ok p2, st1)

/-- Claim C5 (amended): when `_validate_parameters` rejects the input, the
`add_slide` call propagates the error and no slide is appended — but the
parameter dict has already been appended to the internal config dict, which is
therefore mutated by the failed call. -/
theorem claim_C5_amended (st : ReportState) (content : PVal) (kwargs : PyDict) (e : String)
    (hval : validate_parameters (build_params content kwargs) = Except.error e) :
    (add_slide_start st content kwargs).1 = Except.error e ∧
    (add_slide_start st content kwargs).2.slides = st.slides ∧
    (add_slide_start st content kwargs).2.configSlides
      = st.configSlides ++ [build_params content kwargs] := by
  simp only [add_slide_start]
  rw [hval]
  exact ⟨rfl, rfl, rfl⟩

/-- Claim C5 counterexample: calling `add_slide` with both `content` and
`grouped_content` raises the validation error, yet the config dict of the
report (initially empty) has gained the slide parameters — the stored
configuration is not unchanged. -/
theorem claim_C5_counterexample :
    (add_slide_start ⟨[], 0⟩ (PVal.list [PVal.str "a.png"])
        [("grouped_content", PVal.list [PVal.str "(x)"])]).1
      = Except.error ("Invalid input. Both 'content' and 'grouped_content' were given"
          ++ " - please give only one input type.") ∧
    (add_slide_start ⟨[], 0⟩ (PVal.list [PVal.str "a.png"])
        [("grouped_content", PVal.list [PVal.str "(x)"])]).2.configSlides ≠ [] := by
  constructor
  · rfl
  · intro h
    have h2 : ([build_params (PVal.list [PVal.str "a.png"])
        [("grouped_content", PVal.list [PVal.str "(x)"])]] : List PyDict) = [] := h
    exact List.cons_ne_nil _ _ h2

/-- Claim C5 witness: the amended statement at the concrete invalid call. -/
theorem claim_C5_witness :
    validate_parameters (build_params (PVal.list [PVal.str "a.png"])
        [("grouped_content", PVal.list [PVal.str "(x)"])])
      = Except.error ("Invalid input. Both 'content' and 'grouped_content' were given"
          ++ " - please give only one input type.") ∧
    ((add_slide_start ⟨[], 5⟩ (PVal.list [PVal.str "a.png"])
        [("grouped_content", PVal.list [PVal.str "(x)"])]).1
      = Except.error ("Invalid input. Both 'content' and 'grouped_content' were given"
          ++ " - please give only one input type.") ∧
    (add_slide_start ⟨[], 5⟩ (PVal.list [PVal.str "a.png"])
        [("grouped_content", PVal.list [PVal.str "(x)"])]).2.slides = 5 ∧
    (add_slide_start ⟨[], 5⟩ (PVal.list [PVal.str "a.png"])
        [("grouped_content", PVal.list [PVal.str "(x)"])]).2.configSlides
      = [] ++ [build_params (PVal.list [PVal.str "a.png"])
          [("grouped_content", PVal.list [PVal.str "(x)"])]]) :=
  ⟨rfl, claim_C5_amended ⟨[], 5⟩ (PVal.list [PVal.str "a.png"])
      [("grouped_content", PVal.list [PVal.str "(x)"])] _ rfl⟩

/-! ## Temporary-file lifecycle of `add_slide`
(powerpointreport.py, lines 433-477) -/

/-- Outcome of running the per-slide `slide._fill_slide()` calls in order,
propagating the first exception. -/
def run_fills : List (Except String Unit) → Except String Unit
  | [] => Except.ok ()
  | Except.ok () :: rest => run_fills rest
  | Except.error e :: _ => Except.error e

/-- The temporary-file lifecycle of `add_slide` (powerpointreport.py, lines
433-477): content resolution produces the temporary raster files `tmp_files`;
the slides are then filled in order, and only after all fills complete does
the cleanup loop (lines 475-477) `os.remove` each temporary file.  The source
has no try/finally, so an exception raised while filling skips the cleanup
loop.  `fills` abstracts the outcome of each `slide._fill_slide()` call; the
second component of the result is the list of temporary files still existing
when `add_slide` terminates. -/
def add_slide_cleanup (tmp_files : List String) (fills : List (Except String Unit)) :
    Except String Unit × List String :=
  match run_fills fills with
  | Except.error e => (Except.error e, tmp_files)
  | Except.ok () => (Except.ok (), [])

lemma run_fills_ok : ∀ fills : List (Except String Unit),
    (∀ f ∈ fills, f = Except.ok ()) → run_fills fills = Except.ok () := by
  intro fills
  induction fills with
  | nil => intro _; rfl
  | cons f rest ih =>
    intro hok
    have hf : f = Except.ok () := hok f (by simp)
    subst hf
    show run_fills rest = Except.ok ()
    exact ih (fun g hg => hok g (by simp [hg]))

/-- Claim C4 (amended): the temporary raster files created while adding a
slide are all deleted when every box-filling completes normally; when a fill
raises, the exception propagates and every temporary file remains (cleanup is
skipped, not guaranteed). -/
theorem claim_C4_amended (tmp_files : List String) (fills : List (Except String Unit)) :
    ((∀ f ∈ fills, f = Except.ok ()) →
      add_slide_cleanup tmp_files fills = (Except.ok (), [])) ∧
    (∀ e, run_fills fills = Except.error e →
      add_slide_cleanup tmp_files fills = (Except.error e, tmp_files)) := by
  constructor
  · intro hok
    unfold add_slide_cleanup
    rw [run_fills_ok fills hok]
  · intro e he
    unfold add_slide_cleanup
    rw [he]

/-- Claim C4 counterexample: one temporary file converted from a PDF page and
one slide whose filling raises — `add_slide` propagates the exception and the
temporary file remains afterwards, contradicting guaranteed cleanup. -/
theorem claim_C4_counterexample :
    (add_slide_cleanup ["/tmp/pdfpage1.png"] [Except.error "error while filling box"]).1
        = Except.error "error while filling box" ∧
    (add_slide_cleanup ["/tmp/pdfpage1.png"] [Except.error "error while filling box"]).2
        = ["/tmp/pdfpage1.png"] :=
  ⟨rfl, rfl⟩

/-- Claim C4 witness: both branches of the amended statement at concrete
inputs. -/
theorem claim_C4_witness :
    add_slide_cleanup ["/tmp/pdfpageA.png"] [Except.ok ()] = (Except.ok (), []) ∧
    add_slide_cleanup ["/tmp/pdfpageB.png"] [Except.error "fit error"]
      = (Except.error "fit error", ["/tmp/pdfpageB.png"]) :=
  ⟨(claim_C4_amended ["/tmp/pdfpageA.png"] [Except.ok ()]).1
      (fun f hf => by rw [List.mem_singleton.mp hf]),
   (claim_C4_amended ["/tmp/pdfpageB.png"] [Except.error "fit error"]).2 "fit error" rfl⟩

/-! ## Grouped content: `PowerPointReport._get_paired_content`
(powerpointreport.py, lines 752-803) and the grouped branch of `add_slide`
(lines 434-461) -/

/-- The group dict of one pattern: group name to matched file. -/
abbrev GroupDict := List (String × String)

/-- Python dict assignment on a group dict: overwrite in place, else append. -/
def gdictInsert (d : GroupDict) (k v : String) : GroupDict :=
  if d.any (fun kv => kv.1 == k) then d.map (fun kv => if kv.1 == k then (k, v) else kv)
  else d ++ [(k, v)]

/-- Python `d.get(k, None)` on a group dict. -/
def gdictGetOpt (d : GroupDict) (k : String) : Option String :=
  (d.find? (fun kv => kv.1 == k)).map Prod.snd

/-- The per-pattern phase of `_get_paired_content` (lines 768-787): each file
found for the pattern is matched against it; a match carrying zero or several
capture groups is an error; otherwise the single captured group maps to the
file (a later file with the same group overwrites).  `globRegex` is the
external `_glob_regex` collaborator and `reMatch` the external `re.match`,
returning the tuple of captured groups on a match. -/
def patternGroups (globRegex : String → List String)
    (reMatch : String → String → Option (List String)) (pattern : String) :
    Except String GroupDict :=
  (globRegex pattern).foldl (fun acc fil =>
    match acc with
    | Except.error e => Except.error e
    | Except.ok d =>
      match reMatch pattern fil with
      | Option.none => Except.ok d
      | Option.some groups =>
        if groups.length = 0 then
          Except.error ("Regex " ++ pattern ++ " does not contain any groups.")
        else if 1 < groups.length then
          Except.error ("Regex " ++ pattern ++ " contains more than one group.")
        else Except.ok (gdictInsert d (groups.getD 0 "") fil)) (Except.ok [])

/-- Group dicts of all patterns, in pattern order. -/
def allPatternGroups (globRegex : String → List String)
    (reMatch : String → String → Option (List String)) :
    List String → Except String (List GroupDict)
  | [] => Except.ok []
  | p :: rest =>
    match patternGroups globRegex reMatch p with
    | Except.error e => Except.error e
    | Except.ok d =>
      match allPatternGroups globRegex reMatch rest with
      | Except.error e => Except.error e
      | Except.ok ds => Except.ok (d :: ds)

/-- `PowerPointReport._get_paired_content` (powerpointreport.py, lines
752-803): build the per-pattern group dicts; collect all group names
(deduplicated, then natural-sorted); a pattern with no groups at all
contributes its literal pattern string to every group; finally pivot to one
`(group, content list)` pair per group, in natural-sorted group order, with
`None` for a pattern that misses the group. -/
def get_paired_content (globRegex : String → List String)
    (reMatch : String → String → Option (List String)) (raw_content : List String) :
    Except String (List (String × List (Option String))) :=
  match allPatternGroups globRegex reMatch raw_content with
  | Except.error e => Except.error e
  | Except.ok dicts =>
    let allGroups := (dicts.map (fun d => d.map Prod.fst)).flatten
    let sortedGroups := natsorted allGroups.dedup
    let dicts2 := (raw_content.zip dicts).map (fun pd =>
      if pd.2.isEmpty then sortedGroups.map (fun g => (g, pd.1)) else pd.2)
    Except.ok (sortedGroups.map (fun g => (g, dicts2.map (fun d => gdictGetOpt d g))))

/-- Python `s.endswith(".pdf")`. -/
def endsWithPdf (s : String) : Bool := (".pdf".data).isSuffixOf s.data

/-- The per-group PDF replacement of the grouped branch of `add_slide` (lines
442-455): an element ending in ".pdf" is converted by the external
`_convert_pdf` collaborator `convertPdf` (already specialised to the
`pdf_pages` parameter); several page images are a hard error for grouped
content, and the single page image replaces the element. -/
def convertGroupContent (convertPdf : String → List String) :
    List (Option String) → Except String (List (Option String))
  | [] => Except.ok []
  | el :: rest =>
    match
      (match el with
       | Option.some s =>
         if endsWithPdf s then
           match convertPdf s with
           | [] => Except.error "IndexError: list index out of range"
           | [img] => Except.ok (Option.some img)
           | _ => Except.error "Multiple pages in pdf is not supported for grouped content."
         else Except.ok (Option.some s)
       | Option.none => Except.ok Option.none) with
    | Except.error e => Except.error e
    | Except.ok el2 =>
      match convertGroupContent convertPdf rest with
      | Except.error e => Except.error e
      | Except.ok rest2 => Except.ok (el2 :: rest2)

/-- One slide produced by the grouped branch: its title and content list. -/
structure GroupSlide where
  title : String
  content : List (Option String)
deriving DecidableEq

/-- Title of a grouped slide (line 458): defaults to "Group: {name}" when no
title parameter was given. -/
def slideTitle (title : Option String) (group : String) : String :=
  match title with
  | Option.none => "Group: " ++ group
  | Option.some t => t

/-- The slide-creation loop of the grouped branch (lines 440-461): exactly one
slide per group pair, in order. -/
def groupSlides (convertPdf : String → List String) (title : Option String) :
    List (String × List (Option String)) → Except String (List GroupSlide)
  | [] => Except.ok []
  | p :: rest =>
    match convertGroupContent convertPdf p.2 with
    | Except.error e => Except.error e
    | Except.ok content =>
      match groupSlides convertPdf title rest with
      | Except.error e => Except.error e
      | Except.ok slides =>
        Except.ok ({ title := slideTitle title p.1, content := content } :: slides)

/-- The applicable split check of `_validate_parameters` (lines 264-266) in
grouped mode: `content` is absent, so `parameters.get("split", False)` is the
passed value, and any value other than the literal `False` trips the
split-without-content error. -/
def splitGivenNotFalse : Option PVal → Bool
  | Option.some v => !v.isFalseLit
  | Option.none => false

/-- The grouped-content branch of `add_slide` (powerpointreport.py, lines
416-461) after parameter merging: validation, group discovery, then one slide
per group. -/
def add_slide_grouped (globRegex : String → List String)
    (reMatch : String → String → Option (List String)) (convertPdf : String → List String)
    (split : Option PVal) (title : Option String) (grouped_content : List String) :
    Except String (List GroupSlide) :=
  if splitGivenNotFalse split then
    Except.error "Invalid input. 'split' is given, but 'content' is empty"
  else
    match get_paired_content globRegex reMatch grouped_content with
    | Except.error e => Except.error e
    | Except.ok pairs => groupSlides convertPdf title pairs

lemma groupSlides_ok (convertPdf : String → List String) (title : Option String) :
    ∀ pairs : List (String × List (Option String)),
      (∀ p ∈ pairs, ∃ cs, convertGroupContent convertPdf p.2 = Except.ok cs) →
      ∃ slides, groupSlides convertPdf title pairs = Except.ok slides ∧
        slides.length = pairs.length := by
  intro pairs
  induction pairs with
  | nil => intro _; exact ⟨[], rfl, rfl⟩
  | cons p rest ih =>
    intro hconv
    obtain ⟨cs, hcs⟩ := hconv p (by simp)
    obtain ⟨slides, hs, hl⟩ := ih (fun q hq => hconv q (by simp [hq]))
    refine ⟨{ title := slideTitle title p.1, content := cs } :: slides, ?_, ?_⟩
    · simp only [groupSlides]
      rw [hcs, hs]
    · simp [hl]

/-- Claim C6 (amended): when `split` is absent (or is the literal `False`),
`add_slide` with `grouped_content` produces exactly one slide per discovered
group, with groups in natural-sort order (a sorted permutation of the
deduplicated group names found by the patterns).  Explicitly passing any other
`split` value together with `grouped_content` instead raises the
split-without-content validation error (see the counterexample), so the
"regardless of split" part of the original claim fails. -/
theorem claim_C6_amended (globRegex : String → List String)
    (reMatch : String → String → Option (List String)) (convertPdf : String → List String)
    (split : Option PVal) (title : Option String) (grouped_content : List String)
    (dicts : List GroupDict) (pairs : List (String × List (Option String)))
    (hsplit : split = Option.none ∨ split = Option.some (PVal.bool false))
    (hd : allPatternGroups globRegex reMatch grouped_content = Except.ok dicts)
    (hp : get_paired_content globRegex reMatch grouped_content = Except.ok pairs)
    (hconv : ∀ p ∈ pairs, ∃ cs, convertGroupContent convertPdf p.2 = Except.ok cs) :
    ∃ slides, add_slide_grouped globRegex reMatch convertPdf split title grouped_content
        = Except.ok slides ∧
      slides.length = pairs.length ∧
      (pairs.map Prod.fst).Sorted natsortLe ∧
      List.Perm (pairs.map Prod.fst)
        ((dicts.map (fun d => d.map Prod.fst)).flatten).dedup := by
  have hsg : splitGivenNotFalse split = false := by
    rcases hsplit with h | h <;> subst h <;> rfl
  obtain ⟨slides, hs, hlen⟩ := groupSlides_ok convertPdf title pairs hconv
  have hmf : pairs.map Prod.fst
      = natsorted ((dicts.map (fun d => d.map Prod.fst)).flatten).dedup := by
    simp only [get_paired_content, hd] at hp
    have hx := Except.ok.inj hp
    rw [← hx, List.map_map]
    have hcomp : (Prod.fst ∘ fun g => (g,
        ((grouped_content.zip dicts).map (fun pd =>
          if pd.2.isEmpty then
            (natsorted ((dicts.map (fun d => d.map Prod.fst)).flatten).dedup).map
              (fun g2 => (g2, pd.1))
          else pd.2)).map (fun d => gdictGetOpt d g))) = id := rfl
    rw [hcomp, List.map_id]
  refine ⟨slides, ?_, hlen, ?_, ?_⟩
  · unfold add_slide_grouped
    rw [hsg, if_neg (by simp), hp]
    exact hs
  · rw [hmf]
    exact List.sorted_insertionSort natsortLe _
  · rw [hmf]
    exact List.perm_insertionSort natsortLe _

/-- Claim C6 counterexample: with one pattern discovering one group, the call
without `split` yields exactly one slide, but the very same call with
`split = 2` raises a validation error and yields no slides at all — `split`
is not ignored in grouped-content mode. -/
theorem claim_C6_counterexample :
    add_slide_grouped (fun _ => ["cat_blue.jpg"]) (fun _ _ => Option.some ["cat"])
        (fun _ => []) Option.none Option.none ["(.+)_blue.jpg"]
      = Except.ok [{ title := "Group: cat", content := [Option.some "cat_blue.jpg"] }] ∧
    add_slide_grouped (fun _ => ["cat_blue.jpg"]) (fun _ _ => Option.some ["cat"])
        (fun _ => []) (Option.some (PVal.int 2)) Option.none ["(.+)_blue.jpg"]
      = Except.error "Invalid input. 'split' is given, but 'content' is empty" := by
  constructor
  · rfl
  · rfl

/-- Claim C6 witness: the amended statement at a concrete one-group input. -/
theorem claim_C6_witness :
    (allPatternGroups (fun _ => ["cat_blue.jpg"]) (fun _ _ => Option.some ["cat"])
        ["(.+)_blue.jpg"] = Except.ok [[("cat", "cat_blue.jpg")]] ∧
     get_paired_content (fun _ => ["cat_blue.jpg"]) (fun _ _ => Option.some ["cat"])
        ["(.+)_blue.jpg"] = Except.ok [("cat", [Option.some "cat_blue.jpg"])]) ∧
    (∃ slides, add_slide_grouped (fun _ => ["cat_blue.jpg"]) (fun _ _ => Option.some ["cat"])
        (fun _ => []) Option.none Option.none ["(.+)_blue.jpg"] = Except.ok slides ∧
      slides.length = ([("cat", [Option.some "cat_blue.jpg"])] :
          List (String × List (Option String))).length ∧
      (([("cat", [Option.some "cat_blue.jpg"])] :
          List (String × List (Option String))).map Prod.fst).Sorted natsortLe ∧
      List.Perm (([("cat", [Option.some "cat_blue.jpg"])] :
          List (String × List (Option String))).map Prod.fst)
        ((([[("cat", "cat_blue.jpg")]] : List GroupDict).map
            (fun d => d.map Prod.fst)).flatten).dedup) :=
  ⟨⟨rfl, rfl⟩,
    claim_C6_amended (fun _ => ["cat_blue.jpg"]) (fun _ _ => Option.some ["cat"])
      (fun _ => []) Option.none Option.none ["(.+)_blue.jpg"]
      [[("cat", "cat_blue.jpg")]] [("cat", [Option.some "cat_blue.jpg"])]
      (Or.inl rfl) rfl rfl
      (fun p hp => ⟨p.2, by
        rw [List.mem_singleton.mp hp]
        rfl⟩)⟩
